import Mathlib

/-!
Shallow embedding of the settlement / reconciliation core of the
bloc-step-arcade-backend service, together with proofs about the
properties its specification states.

Conventions used throughout:
* Database tables are modelled as association lists or plain lists of rows;
  the Supabase client never throws on a row-level error (it returns an
  `error` field), so a query whose error the source code ignores is
  modelled as leaving the table unchanged and continuing.
* JS `number` amounts are modelled as `Int` (all arithmetic in the claims'
  range is exact in IEEE doubles, e.g. `overflow * 0.75` for the small
  quarter counts involved equals `3 * overflow / 4` exactly).
* Timestamps are milliseconds since the Unix epoch (`Int`), matching
  `Date.now()` / `getTime()`.
* Wallet addresses and transaction hashes are `String`s, assumed already
  lower-cased (the source lower-cases at each use site).
-/

namespace BlocStep

/-! ## Lost & Found pool: constants and data model
(`src/services/blockchain/LostFoundPoolService.ts`) -/

/-- `POOL_CAP = 2500` — max quarters in pool. -/
def POOL_CAP : Int := 2500

/-- `COOLDOWN_MS = 24 * 60 * 60 * 1000` — 24 hours in milliseconds. -/
def COOLDOWN_MS : Int := 24 * 60 * 60 * 1000

/-- `OVERFLOW_STAKING_PERCENT = 75`. -/
def OVERFLOW_STAKING_PERCENT : Int := 75

/-- One UTC day in milliseconds (used to model JS `Date.UTC` calendar math). -/
def DAY_MS : Int := 24 * 60 * 60 * 1000

/-- The singleton `lost_found_pool` row. -/
structure PoolRow where
  balance : Int
  total_received : Int
  total_claimed : Int
  total_overflow : Int
deriving DecidableEq, Repr

/-- A `pool_claims` row (per-wallet claim state; `last_claim_time` is a
nullable column). -/
structure ClaimRow where
  player_id : Option String
  last_claim_time : Option Int
  streak : Int
  total_claimed : Int
deriving DecidableEq, Repr

/-- A `pool_claim_history` row. -/
structure HistoryRow where
  player_id : Option String
  wallet_address : String
  quarters_claimed : Int
  streak_at_claim : Int
  pool_balance_after : Int
  tx_hash : Option String
deriving DecidableEq, Repr

/-- The slice of the datastore touched by `LostFoundPoolService`, plus an
instrumentation field `chainCalls` recording each invocation of
`executeOnChainClaim` (wallet, quarters) so that "no on-chain transaction
was submitted" is observable in the model. -/
structure PoolDb where
  pool : PoolRow
  pool_claims : List (String × ClaimRow)
  pool_claim_history : List HistoryRow
  chainCalls : List (String × Int)
deriving DecidableEq, Repr

/-- `getClaimState`: select from `pool_claims` by wallet address. -/
def getClaimState (db : PoolDb) (wallet : String) : Option ClaimRow :=
  (db.pool_claims.find? (fun p => p.1 == wallet)).map (·.2)

/-- Result of `addToPool`. -/
structure AddResult where
  addedToPool : Int
  overflowToStaking : Int
  overflowToOperations : Int
deriving DecidableEq, Repr

/-- `addToPool(quarters, source)`: overflow-splitting pool credit.
`Math.floor(overflow * (75 / 100))` is written `(overflow * 75).fdiv 100`,
which is exactly the floored product for every integer `overflow` in the
IEEE-exact range the service operates in. The database update runs only
when `addedToPool > 0 || overflow > 0`, exactly as in the source. -/
def addToPool (db : PoolDb) (quarters : Int) (_source : String) :
    PoolDb × AddResult :=
  let spaceInPool := max 0 (POOL_CAP - db.pool.balance)
  let addedToPool := min quarters spaceInPool
  let overflow := quarters - addedToPool
  let overflowToStaking := (overflow * OVERFLOW_STAKING_PERCENT).fdiv 100
  let overflowToOperations := overflow - overflowToStaking
  let db' :=
    if addedToPool > 0 ∨ overflow > 0 then
      { db with
          pool :=
            { db.pool with
                balance := db.pool.balance + addedToPool
                total_received := db.pool.total_received + quarters
                total_overflow := db.pool.total_overflow + overflow } }
    else db
  (db', ⟨addedToPool, overflowToStaking, overflowToOperations⟩)

/-- `getNextResetTime(afterTimestamp)`: the source builds
`Date.UTC(getUTCFullYear, getUTCMonth, getUTCDate + 1, 0, 0, 0, 0)` from the
timestamp, i.e. midnight at the start of the next UTC calendar day.  Every
UTC day is exactly `86400000` ms in JS epoch time, so this equals
`(⌊t / DAY_MS⌋ + 1) * DAY_MS`. -/
def getNextResetTime (afterTimestamp : Int) : Int :=
  (afterTimestamp.fdiv DAY_MS + 1) * DAY_MS

/-- Result shape of `canClaim` (the human-readable `reason` string is not
modelled). -/
structure CanClaimResult where
  allowed : Bool
  nextClaimTime : Option Int
deriving DecidableEq, Repr

/-- `canClaim(walletAddress)`: allowed when there is no prior claim row or
its `last_claim_time` is null; otherwise rejected exactly when
`now - lastClaimTime < COOLDOWN_MS`, carrying `getNextResetTime(lastClaimTime)`. -/
def canClaim (db : PoolDb) (wallet : String) (now : Int) : CanClaimResult :=
  match getClaimState db wallet with
  | none => ⟨true, none⟩
  | some claimState =>
    match claimState.last_claim_time with
    | none => ⟨true, none⟩
    | some lastClaimTime =>
      if now - lastClaimTime < COOLDOWN_MS then
        ⟨false, some (getNextResetTime lastClaimTime)⟩
      else
        ⟨true, none⟩

/-- `calculateNewStreak(lastClaimTime, currentStreak, now)`.  The source
compares `hoursSinceLastClaim = (now - last) / 3600000` (a double) against
the integer bounds 24 and 48; for integer-millisecond inputs this is
equivalent to comparing `now - last` against `24h` and `48h` in ms, because
the boundary quotients are exactly representable. -/
def calculateNewStreak (lastClaimTime : Option Int) (currentStreak : Int)
    (now : Int) : Int :=
  match lastClaimTime with
  | none => 1
  | some last =>
    let gapMs := now - last
    if 24 * 3600000 ≤ gapMs ∧ gapMs ≤ 48 * 3600000 then
      currentStreak + 1
    else if gapMs > 48 * 3600000 then
      1
    else
      currentStreak

/-- `getMaxClaimable(streak)`: 4+ days → 4, 2–3 days → 2, else 1. -/
def getMaxClaimable (streak : Int) : Int :=
  if streak ≥ 4 then 4
  else if streak ≥ 2 then 2
  else 1

/-- What a service method hands back to its caller: either a thrown JS
exception (its message) or a returned value. -/
inductive Outcome (α : Type) where
  | thrown (msg : String)
  | value (v : α)
deriving DecidableEq, Repr

/-- Result object of `claimFromPool` (the optional `cooldownActive` flag is
modelled as a plain Bool defaulting to false, `txHash` as an option). -/
structure ClaimResult where
  claimed : Int
  poolBalanceAfter : Int
  streak : Int
  nextClaimTime : Int
  cooldownActive : Bool
  txHash : Option String
deriving DecidableEq, Repr

/-- Outcome of the on-chain payout leg `executeOnChainClaim`
(simulate + write + wait for receipt): a transaction hash, or a thrown
error. -/
structure ClaimEnv where
  claimTx : Except String String

/-- Update-or-insert a `pool_claims` row (Supabase `upsert ... onConflict:
wallet_address`). -/
def upsertClaimRow (rows : List (String × ClaimRow)) (wallet : String)
    (row : ClaimRow) : List (String × ClaimRow) :=
  if rows.any (fun p => p.1 == wallet) then
    rows.map (fun p => if p.1 == wallet then (p.1, row) else p)
  else
    rows ++ [(wallet, row)]

/-- `claimFromPool(walletAddress, playerId)`:
cooldown gate, streak recomputation, pool-bounded claim amount, on-chain
payout, then pool / claim-state / history updates.  `now` is the
`Date.now()` captured at entry (the later `new Date()` timestamps are
modelled with the same instant). -/
def claimFromPool (env : ClaimEnv) (db : PoolDb) (wallet : String)
    (playerId : Option String) (now : Int) : PoolDb × Outcome ClaimResult :=
  let cooldownCheck := canClaim db wallet now
  if cooldownCheck.allowed = false then
    let claimState := getClaimState db wallet
    (db, .value
      { claimed := 0
        poolBalanceAfter := db.pool.balance
        streak := ((claimState.map (·.streak)).getD 0)
        nextClaimTime := cooldownCheck.nextClaimTime.getD 0
        cooldownActive := true
        txHash := none })
  else
    let claimState := getClaimState db wallet
    let currentStreak := (claimState.map (·.streak)).getD 0
    let lastClaimTime := claimState.bind (·.last_claim_time)
    let newStreak := calculateNewStreak lastClaimTime currentStreak now
    let maxClaimable := getMaxClaimable newStreak
    let claimed := min maxClaimable db.pool.balance
    if claimed = 0 then
      (db, .value
        { claimed := 0
          poolBalanceAfter := db.pool.balance
          streak := newStreak
          nextClaimTime := getNextResetTime now
          cooldownActive := false
          txHash := none })
    else
      let db1 := { db with chainCalls := db.chainCalls ++ [(wallet, claimed)] }
      match env.claimTx with
      | .error e => (db1, .thrown e)
      | .ok txHash =>
        let newPoolBalance := db.pool.balance - claimed
        let db2 := { db1 with
          pool := { db1.pool with
            balance := newPoolBalance
            total_claimed := db1.pool.total_claimed + claimed } }
        let db3 := { db2 with
          pool_claims := upsertClaimRow db2.pool_claims wallet
            { player_id := playerId
              last_claim_time := some now
              streak := newStreak
              total_claimed := ((claimState.map ClaimRow.total_claimed).getD 0) + claimed } }
        let db4 := { db3 with
          pool_claim_history := db3.pool_claim_history ++
            [{ player_id := playerId
               wallet_address := wallet
               quarters_claimed := claimed
               streak_at_claim := newStreak
               pool_balance_after := newPoolBalance
               tx_hash := some txHash }] }
        (db4, .value
          { claimed := claimed
            poolBalanceAfter := newPoolBalance
            streak := newStreak
            nextClaimTime := getNextResetTime now
            cooldownActive := false
            txHash := some txHash })

/-! ## Players, ledgers and sessions
(schema `supabase/migrations/001_initial_schema.sql`) -/

/-- The columns of a `players` row the core mutates (all `DEFAULT 0`). -/
structure PlayersRow where
  total_time_purchased : Int
  cached_time_balance : Int
  total_time_consumed : Int
  cached_staked_balance : Int
  total_tips_sent : Int
  total_tips_received : Int
deriving DecidableEq, Repr

/-- A fresh `players` row (schema defaults). -/
def PlayersRow.init : PlayersRow := ⟨0, 0, 0, 0, 0, 0⟩

/-- Ledger status enum: `pending | submitted | confirmed | failed`. -/
inductive LedgerStatus where
  | pending | submitted | confirmed | failed
deriving DecidableEq, Repr

/-- A `time_purchases` row (`tx_hash` is `NOT NULL UNIQUE`). -/
structure PurchaseRow where
  wallet_address : String
  seconds_purchased : Int
  cost_wei : Int
  tx_hash : String
  block_number : Nat
  log_index : Nat
deriving DecidableEq, Repr

/-- A `time_consumptions` row (`tx_hash` nullable and `UNIQUE`). -/
structure ConsumptionRow where
  id : Nat
  session_id : Option String
  wallet_address : String
  seconds_consumed : Int
  tx_hash : Option String
  status : LedgerStatus
  error_message : Option String
  confirmed_at : Option Int
deriving DecidableEq, Repr

/-- A `tips` row (`tx_hash` nullable and `UNIQUE`). -/
structure TipRow where
  id : Nat
  from_wallet : String
  to_wallet : String
  amount_wei : Int
  tx_hash : Option String
  status : LedgerStatus
  error_message : Option String
  confirmed_at : Option Int
deriving DecidableEq, Repr

/-- Session status enum. -/
inductive SessionStatus where
  | active | paused | completed | expired
deriving DecidableEq, Repr

/-- A `game_sessions` row (the fields `consumeTime` touches). -/
structure SessionRow where
  id : String
  player_id : Option String
  wallet_address : String
  status : SessionStatus
  total_time_consumed : Int
deriving DecidableEq, Repr

/-- The slice of the datastore touched by the reconciliation handlers and
the settlement coordinators. -/
structure Db where
  players : List (String × PlayersRow)
  time_purchases : List PurchaseRow
  time_consumptions : List ConsumptionRow
  tips : List TipRow
  sessions : List SessionRow
deriving DecidableEq, Repr

/-- `getPlayer`: select a `players` row by wallet address. -/
def getPlayer (db : Db) (wallet : String) : Option PlayersRow :=
  (db.players.find? (fun p => p.1 == wallet)).map (·.2)

/-- Replace the stored row for a wallet with the given row (the source
updates by the row's primary key; wallets are the unique key here). -/
def setPlayer (db : Db) (wallet : String) (row : PlayersRow) : Db :=
  { db with
    players := db.players.map (fun p => if p.1 == wallet then (p.1, row) else p) }

/-- `ensurePlayer`: select by wallet, insert a default row when absent
(`EventListenerService.ensurePlayer`). -/
def ensurePlayer (db : Db) (wallet : String) : Db × PlayersRow :=
  match getPlayer db wallet with
  | some player => (db, player)
  | none =>
    ({ db with players := db.players ++ [(wallet, PlayersRow.init)] },
      PlayersRow.init)

/-! ## Reconciliation handlers
(`src/services/blockchain/EventListenerService.ts`) -/

/-- Decoded args plus log position of a `TimePurchased` log. -/
structure TimePurchasedLog where
  player : String
  seconds : Int
  cost : Int
  tx_hash : String
  block_number : Nat
  log_index : Nat
deriving DecidableEq, Repr

/-- Decoded args of a `TimeConsumed` log. -/
structure TimeConsumedLog where
  player : String
  seconds : Int
  tx_hash : String
deriving DecidableEq, Repr

/-- Decoded args of a `TipExecuted` log. -/
structure TipExecutedLog where
  fromAddr : String
  toAddr : String
  amount : Int
  tx_hash : String
deriving DecidableEq, Repr

/-- `handleTimePurchased(log)`: ensure the player row, insert the
`time_purchases` row, then update the player's totals.  The insert's
result is not checked by the source: on a `tx_hash` unique-key conflict the
row is simply not inserted (Supabase reports the error in the returned
object, which the code ignores) and execution continues, so the player
update runs on every delivery, duplicate or not. -/
def handleTimePurchased (db : Db) (log : TimePurchasedLog) : Db :=
  let (db1, player) := ensurePlayer db log.player
  let db2 :=
    if db1.time_purchases.any (fun r => r.tx_hash == log.tx_hash) then db1
    else
      { db1 with
        time_purchases := db1.time_purchases ++
          [{ wallet_address := log.player
             seconds_purchased := log.seconds
             cost_wei := log.cost
             tx_hash := log.tx_hash
             block_number := log.block_number
             log_index := log.log_index }] }
  setPlayer db2 log.player
    { player with
        total_time_purchased := player.total_time_purchased + log.seconds
        cached_time_balance := player.cached_time_balance + log.seconds }

/-- `handleTimeConsumed(log)`: update the player's consumption counters
(clamping the cached balance at zero), then set every `time_consumptions`
row whose `tx_hash` equals the log's transaction hash to `confirmed` —
with no condition on the row's current status.  `now` models the
`new Date()` taken for `confirmed_at`. -/
def handleTimeConsumed (db : Db) (log : TimeConsumedLog) (now : Int) : Db :=
  let db1 :=
    match getPlayer db log.player with
    | some player =>
      setPlayer db log.player
        { player with
            total_time_consumed := player.total_time_consumed + log.seconds
            cached_time_balance :=
              max 0 (player.cached_time_balance - log.seconds) }
    | none => db
  { db1 with
    time_consumptions := db1.time_consumptions.map (fun r =>
      if r.tx_hash == some log.tx_hash then
        { r with status := .confirmed, confirmed_at := some now }
      else r) }

/-- `handleTipExecuted(log)`: set every `tips` row whose `tx_hash` equals
the log's transaction hash to `confirmed`, with no condition on the row's
current status. -/
def handleTipExecuted (db : Db) (log : TipExecutedLog) (now : Int) : Db :=
  { db with
    tips := db.tips.map (fun r =>
      if r.tx_hash == some log.tx_hash then
        { r with status := .confirmed, confirmed_at := some now }
      else r) }

/-! ## Settlement coordinators
(`src/services/game/TimeConsumptionService.ts`, `TipCommandService`) -/

/-- Outcomes of the RPC legs `consumeTime` depends on:
`arcadeVaultService.getTimeBalance` (a bigint), the transaction submission
(`arcadeVaultService.consumeTime`, yielding a tx hash or throwing) and the
bounded receipt wait (`waitForConsumption`, yielding the receipt status or
throwing, e.g. on timeout). -/
structure ConsumeEnv where
  balance : Int
  submit : Except String String
  wait : Except String Bool

/-- `getSession(sessionId)`. -/
def getSession (db : Db) (sessionId : String) : Option SessionRow :=
  db.sessions.find? (fun s => s.id == sessionId)

/-- `updateSessionTimeConsumed(sessionId, additionalSeconds)`: re-reads the
session and writes `total_time_consumed + additionalSeconds`; a no-op when
the session is missing. -/
def updateSessionTimeConsumed (db : Db) (sessionId : String)
    (additionalSeconds : Int) : Db :=
  match getSession db sessionId with
  | none => db
  | some session =>
    { db with
      sessions := db.sessions.map (fun s =>
        if s.id == sessionId then
          { s with total_time_consumed :=
              session.total_time_consumed + additionalSeconds }
        else s) }

/-- Update the `time_consumptions` row with the given id. -/
def updateConsumption (db : Db) (id : Nat)
    (f : ConsumptionRow → ConsumptionRow) : Db :=
  { db with
    time_consumptions := db.time_consumptions.map (fun r =>
      if r.id == id then f r else r) }

/-- `TimeConsumptionService.consumeTime(sessionId, seconds)`: validate the
session and the external time balance, insert a `pending` ledger row, then
submit / mark `submitted` / wait / mark `confirmed`, marking the row
`failed` with the error text and re-throwing on any failure of the
on-chain legs.  `nextId` is the generated primary key of the inserted row,
`now` the clock used for `confirmed_at`.  The returned row is the object
the source hands back: the inserted row with `tx_hash` and `status`
overridden (its `confirmed_at` is not part of that spread). -/
def consumeTime (env : ConsumeEnv) (db : Db) (sessionId : String)
    (seconds : Int) (nextId : Nat) (now : Int) :
    Db × Outcome ConsumptionRow :=
  match getSession db sessionId with
  | none => (db, .thrown "Session not found")
  | some session =>
    if session.status ≠ .active then
      (db, .thrown "Session is not active")
    else if env.balance < seconds then
      (db, .thrown "Insufficient time balance")
    else
      let consumption : ConsumptionRow :=
        { id := nextId
          session_id := some sessionId
          wallet_address := session.wallet_address
          seconds_consumed := seconds
          tx_hash := none
          status := .pending
          error_message := none
          confirmed_at := none }
      let db1 := { db with time_consumptions := db.time_consumptions ++ [consumption] }
      match env.submit with
      | .error e =>
        (updateConsumption db1 nextId
          (fun r => { r with status := .failed, error_message := some e }),
         .thrown e)
      | .ok txHash =>
        let db2 := updateConsumption db1 nextId
          (fun r => { r with tx_hash := some txHash, status := .submitted })
        match env.wait with
        | .error e =>
          (updateConsumption db2 nextId
            (fun r => { r with status := .failed, error_message := some e }),
           .thrown e)
        | .ok false =>
          (updateConsumption db2 nextId
            (fun r => { r with status := .failed,
                               error_message := some "Transaction failed" }),
           .thrown "Transaction failed")
        | .ok true =>
          let db3 := updateSessionTimeConsumed db2 sessionId seconds
          let db4 := updateConsumption db3 nextId
            (fun r => { r with status := .confirmed, confirmed_at := some now })
          (db4, .value { consumption with tx_hash := some txHash, status := .confirmed })

/-- Outcomes of the collaborators `executeTip` depends on: the
social-identity lookups (`neynarClient.getUserByFid`, returning the
verified wallet addresses or no user), the tip submission
(`tipBotService.executeTip`), the receipt wait (`waitForTip`) and the
outbound notification (`sendTipNotification`, which runs inside the same
`try` block and may throw). -/
structure TipEnv where
  fromUser : Option (List String)
  toUser : Option (List String)
  submit : Except String String
  wait : Except String Bool
  notify : Except String Unit

/-- A tip command (amounts in wei). -/
structure TipCommand where
  fromFid : Nat
  toFid : Nat
  amount : Int
deriving DecidableEq, Repr

/-- Update the `tips` row with the given id. -/
def updateTip (db : Db) (id : Nat) (f : TipRow → TipRow) : Db :=
  { db with tips := db.tips.map (fun r => if r.id == id then f r else r) }

/-- `updatePlayerTipStats(fromWallet, toWallet, amount)`: read-then-write
increments of the sender's `total_tips_sent` and the recipient's
`total_tips_received` (each skipped when the player row is absent). -/
def updatePlayerTipStats (db : Db) (fromWallet toWallet : String)
    (amount : Int) : Db :=
  let db1 :=
    match getPlayer db fromWallet with
    | some fromPlayer =>
      setPlayer db fromWallet
        { fromPlayer with total_tips_sent := fromPlayer.total_tips_sent + amount }
    | none => db
  match getPlayer db1 toWallet with
  | some toPlayer =>
    setPlayer db1 toWallet
      { toPlayer with total_tips_received := toPlayer.total_tips_received + amount }
  | none => db1

/-- `TipCommandService.executeTip(command)`: resolve both parties' verified
addresses (returning `null` when either is missing), insert a `pending`
`tips` row, then submit / mark `submitted` / wait / mark `confirmed` /
update tip totals / notify.  Every error of the on-chain legs is caught:
the row is marked `failed` with the error text and the function returns
`null` — it does not re-throw.  The returned row on success is the
inserted row with `tx_hash` and `status` overridden. -/
def executeTip (env : TipEnv) (db : Db) (command : TipCommand)
    (nextId : Nat) (now : Int) : Db × Outcome (Option TipRow) :=
  match env.fromUser with
  | none => (db, .value none)
  | some fromAddrs =>
    if fromAddrs.length = 0 then (db, .value none)
    else
      match env.toUser with
      | none => (db, .value none)
      | some toAddrs =>
        if toAddrs.length = 0 then (db, .value none)
        else
          let fromWallet := fromAddrs.headD ""
          let toWallet := toAddrs.headD ""
          let tipRecord : TipRow :=
            { id := nextId
              from_wallet := fromWallet
              to_wallet := toWallet
              amount_wei := command.amount
              tx_hash := none
              status := .pending
              error_message := none
              confirmed_at := none }
          let db1 := { db with tips := db.tips ++ [tipRecord] }
          match env.submit with
          | .error e =>
            (updateTip db1 nextId
              (fun r => { r with status := .failed, error_message := some e }),
             .value none)
          | .ok txHash =>
            let db2 := updateTip db1 nextId
              (fun r => { r with tx_hash := some txHash, status := .submitted })
            match env.wait with
            | .error e =>
              (updateTip db2 nextId
                (fun r => { r with status := .failed, error_message := some e }),
               .value none)
            | .ok false =>
              (updateTip db2 nextId
                (fun r => { r with status := .failed,
                                   error_message := some "Transaction failed" }),
               .value none)
            | .ok true =>
              let db3 := updateTip db2 nextId
                (fun r => { r with status := .confirmed, confirmed_at := some now })
              let db4 := updatePlayerTipStats db3 fromWallet toWallet command.amount
              match env.notify with
              | .error e =>
                (updateTip db4 nextId
                  (fun r => { r with status := .failed, error_message := some e }),
                 .value none)
              | .ok _ =>
                (db4, .value (some { tipRecord with
                    tx_hash := some txHash, status := .confirmed }))

/-! ## Chain event indexer
(`EventListenerService.start` / `pollEvents`).  The per-log database
effects are the handlers modelled above; here the indexer's control flow
is modelled with the handler outcome abstracted to "completed or threw",
which is all `pollEvents` observes of it. -/

/-- A decoded log as the indexer's dispatch loop sees it: its transaction
hash and whether the registered handler throws on it. -/
structure TLog where
  txHash : String
  handlerFails : Bool
deriving DecidableEq, Repr

/-- The collaborators one `pollEvents` call reads: the chain head
(`getBlockNumber`, taken once at the top of the tick) and the log fetch
(`getLogs` per contract and sub-range, which may throw an RPC error). -/
structure TickEnv where
  head : Nat
  fetch : String → Nat → Nat → Except String (List TLog)

/-- Indexer-side state: the `block_sync_state` checkpoints
(`contract_name ↦ last_synced_block`), plus instrumentation traces — every
checkpoint write, every attempted fetch, every log handed to a handler and
every handler error logged — so the claims about them are observable. -/
structure IndexState where
  checkpoints : List (String × Nat)
  ckptWrites : List (String × Nat)
  fetched : List (String × Nat × Nat)
  attempted : List String
  handlerErrors : List String
deriving DecidableEq, Repr

/-- Look up a contract's checkpoint (`getSyncState`). -/
def lookupCkpt (cs : List (String × Nat)) (name : String) : Option Nat :=
  (cs.find? (fun p => p.1 == name)).map (·.2)

/-- Postgres-style upsert on the unique key `contract_name`: replace the
row with the conflicting key, or insert when absent. -/
def upsertCkpt : List (String × Nat) → String → Nat → List (String × Nat)
  | [], name, v => [(name, v)]
  | p :: rest, name, v =>
    if p.1 == name then (p.1, v) :: rest else p :: upsertCkpt rest name v

/-- `updateSyncState`: upsert the checkpoint row keyed by contract name,
recording the write in the trace. -/
def writeCkpt (st : IndexState) (name : String) (blockNumber : Nat) :
    IndexState :=
  { st with
    checkpoints := upsertCkpt st.checkpoints name blockNumber
    ckptWrites := st.ckptWrites ++ [(name, blockNumber)] }

/-- The per-log dispatch loop: each log's handler is invoked inside a
`try`/`catch`, so a throwing handler is recorded in the error log and the
loop continues with the next log. -/
def processLogs (logs : List TLog) (st : IndexState) : IndexState :=
  logs.foldl (fun acc l =>
    { acc with
      attempted := acc.attempted ++ [l.txHash]
      handlerErrors :=
        if l.handlerFails then acc.handlerErrors ++ [l.txHash]
        else acc.handlerErrors }) st

/-- Iteration core of the sub-range split: one constructor step per
iteration of `for (let s = start; s <= toBlock; s += batchSize)`, with
`end = min(s + batchSize - 1, toBlock)`.  The structural `fuel` argument
only bounds the iteration count (the caller passes the loop's exact trip
bound; the source's batch size is the positive literal `2000n`, for which
the fuel is never exhausted). -/
def subRangesAux (batch toBlock : Nat) : Nat → Nat → List (Nat × Nat)
  | 0, _ => []
  | fuel + 1, start =>
    if toBlock < start then []
    else
      (start, min (start + batch - 1) toBlock) ::
        subRangesAux batch toBlock fuel (start + batch)

/-- The sub-range split of `[start, toBlock]` the source's batching loop
fetches, in increasing order. -/
def subRanges (batch start toBlock : Nat) : List (Nat × Nat) :=
  subRangesAux batch toBlock (toBlock + 1 - start) start

/-- The body of the sub-range loop for one contract: fetch the sub-range's
logs (recording the attempt), dispatch each log, then persist the
checkpoint as the sub-range's end block.  A fetch error propagates (the
`Bool` is false) with no further state change — there is no catch inside
`pollEvents`. -/
def runRanges (env : TickEnv) (name : String) :
    List (Nat × Nat) → IndexState → IndexState × Bool
  | [], st => (st, true)
  | (s, e) :: rest, st =>
    let st1 := { st with fetched := st.fetched ++ [(name, s, e)] }
    match env.fetch name s e with
    | .error _ => (st1, false)
    | .ok logs => runRanges env name rest (writeCkpt (processLogs logs st1) name e)

/-- One contract's share of a tick: `fromBlock` is `checkpoint + 1` when a
checkpoint row exists, else the configured start block; skip when past the
head, else run the sub-ranges of `[fromBlock, head]` in increasing order. -/
def processPair (env : TickEnv) (batch startBlock : Nat) (st : IndexState)
    (name : String) : IndexState × Bool :=
  let fromBlock :=
    match lookupCkpt st.checkpoints name with
    | some c => c + 1
    | none => startBlock
  if env.head < fromBlock then (st, true)
  else runRanges env name (subRanges batch fromBlock env.head) st

/-- `pollEvents`: the registered (contract, event) pairs are processed
sequentially; an exception thrown while processing one pair (an RPC fetch
failure) propagates out of `pollEvents`, abandoning the remaining pairs of
the tick.  The `Bool` records whether the tick ran to completion. -/
def pollEvents (env : TickEnv) (batch startBlock : Nat) :
    List String → IndexState → IndexState × Bool
  | [], st => (st, true)
  | name :: rest, st =>
    match processPair env batch startBlock st name with
    | (st1, true) => pollEvents env batch startBlock rest st1
    | (st1, false) => (st1, false)

/-- The `start()` loop: each tick's `pollEvents` is wrapped in a
`try`/`catch`, so the state reached when a tick aborts is carried into the
next tick unchanged. -/
def runTicks (batch startBlock : Nat) (pairs : List String)
    (envs : List TickEnv) (st : IndexState) : IndexState :=
  envs.foldl (fun s env => (pollEvents env batch startBlock pairs s).1) st

/-- The shape the sub-range list of one tick has: each sub-range ends at or
after `lo`, and each subsequent sub-range lies strictly beyond the previous
end.  (This is the invariant that makes checkpoint writes monotone.) -/
def ChainedFrom (lo : Nat) : List (Nat × Nat) → Prop
  | [] => True
  | r :: rest => lo ≤ r.2 ∧ ChainedFrom (r.2 + 1) rest

/-- Order on optional checkpoints: a missing checkpoint precedes
everything; present checkpoints compare by block. -/
def ckptLE : Option Nat → Option Nat → Prop
  | none, _ => True
  | some _, none => False
  | some a, some b => a ≤ b

instance : DecidablePred (fun p : Option Nat × Option Nat => ckptLE p.1 p.2) :=
  fun p => by
    cases p with
    | mk a b =>
      cases a with
      | none => exact isTrue trivial
      | some a =>
        cases b with
        | none => exact isFalse (fun h => h)
        | some b => exact inferInstanceAs (Decidable (a ≤ b))

/-! ## Concrete fixtures used by counterexamples and witnesses -/

/-- Pool singleton at balance 2470 (the spec's overflow example). -/
def poolDb2470 : PoolDb :=
  { pool := ⟨2470, 0, 0, 0⟩, pool_claims := [], pool_claim_history := []
    chainCalls := [] }

/-- A claim state whose last claim happened at 23:30 UTC on day 0 of the
epoch (`84600000 ms`). -/
def claimRow2330 : ClaimRow :=
  { player_id := none, last_claim_time := some 84600000, streak := 3
    total_claimed := 3 }

/-- Pool datastore holding only `claimRow2330` for wallet `"w"`. -/
def rejectDb : PoolDb :=
  { pool := ⟨0, 0, 0, 0⟩, pool_claims := [("w", claimRow2330)]
    pool_claim_history := [], chainCalls := [] }

/-- Pool datastore with an empty pool and no claim rows. -/
def emptyPoolDb : PoolDb :=
  { pool := ⟨0, 5, 5, 0⟩, pool_claims := [], pool_claim_history := []
    chainCalls := [] }

/-- Datastore with a single zeroed player row for wallet `"alice"`. -/
def purchaseDb : Db :=
  { players := [("alice", PlayersRow.init)], time_purchases := []
    time_consumptions := [], tips := [], sessions := [] }

/-- A `TimePurchased` log: 900 seconds for `"alice"`, transaction `"0xa1"`. -/
def purchaseLog : TimePurchasedLog := ⟨"alice", 900, 5, "0xa1", 10, 0⟩

/-- A `time_consumptions` row the settlement path has marked `failed`
(timed out locally) whose transaction `"0xt1"` was nevertheless mined. -/
def failedRow : ConsumptionRow :=
  { id := 1, session_id := none, wallet_address := "bob"
    seconds_consumed := 100, tx_hash := some "0xt1", status := .failed
    error_message := some "Transaction failed", confirmed_at := none }

/-- Datastore holding only `failedRow`. -/
def failedRowDb : Db :=
  { players := [], time_purchases := [], time_consumptions := [failedRow]
    tips := [], sessions := [] }

/-- An empty datastore. -/
def emptyDb : Db :=
  { players := [], time_purchases := [], time_consumptions := [], tips := []
    sessions := [] }

/-- An active game session for wallet `"alice"`. -/
def activeSession : SessionRow :=
  { id := "s1", player_id := none, wallet_address := "alice"
    status := .active, total_time_consumed := 0 }

/-- Datastore holding only `activeSession`. -/
def sessionDb : Db :=
  { players := [], time_purchases := [], time_consumptions := [], tips := []
    sessions := [activeSession] }

/-- Tip collaborators where both parties have a verified address and the
submission leg reverts. -/
def tipFailEnv : TipEnv :=
  ⟨some ["fa"], some ["ta"], .error "execution reverted", .ok true, .ok ()⟩

/-- Indexer state with two monitored contracts, both checkpointed at
block 100. -/
def twoPairState : IndexState :=
  { checkpoints := [("A", 100), ("B", 100)], ckptWrites := [], fetched := []
    attempted := [], handlerErrors := [] }

/-- A tick whose `getLogs` throws for contract `"A"` and returns no logs
for every other contract, at chain head 105. -/
def failAEnv : TickEnv :=
  { head := 105
    fetch := fun name _ _ =>
      if name == "A" then .error "rate limited" else .ok [] }

/-- Three logs of one sub-range whose middle log's handler throws. -/
def mixedLogs : List TLog := [⟨"t1", false⟩, ⟨"t2", true⟩, ⟨"t3", false⟩]

/-- A tick at head 5 whose every fetch returns `mixedLogs`. -/
def mixedEnv : TickEnv := { head := 5, fetch := fun _ _ _ => .ok mixedLogs }

/-- A tick at head 5 whose every fetch succeeds with no logs. -/
def okEnv : TickEnv := { head := 5, fetch := fun _ _ _ => .ok [] }

/-- Indexer state with contract `"A"` checkpointed at block 2. -/
def ckpt2State : IndexState :=
  { checkpoints := [("A", 2)], ckptWrites := [], fetched := []
    attempted := [], handlerErrors := [] }

/-! ## Arithmetic helper lemmas -/

/-- `Math.floor(overflow * 0.75)` written with the source's constants
equals the spec's `⌊3·overflow / 4⌋`. -/
lemma mul75_fdiv_100 (o : Int) : (o * 75).fdiv 100 = (3 * o).fdiv 4 := by
  rw [Int.fdiv_eq_ediv _ (by norm_num), Int.fdiv_eq_ediv _ (by norm_num)]
  have h1 : o * 75 = 25 * (3 * o) := by ring
  have h2 : (100 : Int) = 25 * 4 := by norm_num
  rw [h1, h2, Int.mul_ediv_mul_of_pos _ _ (by norm_num)]

/-- `getMaxClaimable` is always at least 1. -/
lemma getMaxClaimable_pos (streak : Int) : 1 ≤ getMaxClaimable streak := by
  unfold getMaxClaimable
  split_ifs <;> norm_num

/-! ## Claim theorems -/

/-- **C4, counterexample.**  The claim states that the `nextClaimTime`
returned with a cooldown rejection is the next UTC midnight strictly after
the 24h boundary `lastClaimTime + 24h`, so for a last claim at 23:30 UTC it
would lie after the following day's 23:30 UTC (epoch ms `84600000 +
86400000 = 171000000`).  The code instead returns
`getNextResetTime(lastClaimTime)`, the midnight immediately after the last
claim: for a last claim at 23:30 UTC on day 0 and an attempt 10 hours
later, the rejection carries `86400000` (day 1, 00:00 UTC), which is not
after the 24h boundary. -/
theorem canClaim_next_time_before_cooldown_boundary :
    (canClaim rejectDb "w" (84600000 + 36000000)).allowed = false ∧
    (canClaim rejectDb "w" (84600000 + 36000000)).nextClaimTime
      = some 86400000 ∧
    ¬ (84600000 + COOLDOWN_MS < 86400000) := by
  refine ⟨by decide, by decide, by decide⟩

/-- **C4** (amended).  With a prior claim on record, `canClaim` rejects
exactly when `now − lastClaimTime < 24h`, and the `nextClaimTime` carried
by the rejection is `getNextResetTime(lastClaimTime)`: the unique multiple
of one UTC day strictly after `lastClaimTime` itself — at most 24 hours
after the last claim and possibly well before the 24h boundary. -/
theorem canClaim_cooldown_spec (db : PoolDb) (w : String) (now last : Int)
    (cs : ClaimRow) (hcs : getClaimState db w = some cs)
    (hlast : cs.last_claim_time = some last) :
    ((canClaim db w now).allowed = false ↔ now - last < COOLDOWN_MS) ∧
    ((canClaim db w now).allowed = false →
      (canClaim db w now).nextClaimTime = some (getNextResetTime last)) ∧
    DAY_MS ∣ getNextResetTime last ∧
    last < getNextResetTime last ∧
    getNextResetTime last ≤ last + DAY_MS := by
  have hbounds : last < getNextResetTime last ∧
      getNextResetTime last ≤ last + DAY_MS := by
    unfold getNextResetTime DAY_MS
    rw [Int.fdiv_eq_ediv _ (by norm_num)]
    omega
  have hc : canClaim db w now =
      if now - last < COOLDOWN_MS then
        ⟨false, some (getNextResetTime last)⟩
      else ⟨true, none⟩ := by
    simp only [canClaim, hcs, hlast]
  refine ⟨?_, ?_, ⟨last.fdiv DAY_MS + 1, mul_comm _ _⟩, hbounds.1, hbounds.2⟩
  · rw [hc]
    by_cases h : now - last < COOLDOWN_MS <;> simp [h]
  · intro hrej
    rw [hc] at hrej ⊢
    by_cases h : now - last < COOLDOWN_MS <;> simp [h] at hrej ⊢

/-- **C4, witness** for `canClaim_cooldown_spec` at the 23:30 UTC / +10h
instance. -/
theorem canClaim_cooldown_spec_witness :
    getClaimState rejectDb "w" = some claimRow2330 ∧
    claimRow2330.last_claim_time = some 84600000 ∧
    (((canClaim rejectDb "w" 120600000).allowed = false ↔
        120600000 - 84600000 < COOLDOWN_MS) ∧
      ((canClaim rejectDb "w" 120600000).allowed = false →
        (canClaim rejectDb "w" 120600000).nextClaimTime
          = some (getNextResetTime 84600000)) ∧
      DAY_MS ∣ getNextResetTime 84600000 ∧
      84600000 < getNextResetTime 84600000 ∧
      getNextResetTime 84600000 ≤ 84600000 + DAY_MS) :=
  ⟨by decide, by decide,
    canClaim_cooldown_spec rejectDb "w" 120600000 84600000 claimRow2330
      (by decide) (by decide)⟩

/-- **C5.**  Streak recomputation: no prior claim → 1; gap within
[24h, 48h] → previous + 1; gap > 48h → 1; gap < 24h (unreachable through
the cooldown gate) → previous streak unchanged.  In particular a claim 25
hours after the prior claim yields previous + 1 and a claim 49 hours after
yields 1.  (Gaps are in milliseconds; `3600000` is one hour.) -/
theorem calculateNewStreak_spec (s t now : Int)
    (h24 : 24 * 3600000 ≤ now - t) (h48 : now - t ≤ 48 * 3600000) :
    calculateNewStreak none s now = 1 ∧
    calculateNewStreak (some t) s now = s + 1 ∧
    (∀ n : Int, 48 * 3600000 < n - t → calculateNewStreak (some t) s n = 1) ∧
    (∀ n : Int, n - t < 24 * 3600000 → calculateNewStreak (some t) s n = s) ∧
    calculateNewStreak (some t) s (t + 25 * 3600000) = s + 1 ∧
    calculateNewStreak (some t) s (t + 49 * 3600000) = 1 := by
  refine ⟨rfl, ?_, ?_, ?_, ?_, ?_⟩
  · simp only [calculateNewStreak]
    rw [if_pos ⟨h24, h48⟩]
  · intro n hn
    simp only [calculateNewStreak]
    rw [if_neg (by omega), if_pos (by omega)]
  · intro n hn
    simp only [calculateNewStreak]
    rw [if_neg (by omega), if_neg (by omega)]
  · simp only [calculateNewStreak]
    rw [if_pos (by omega)]
  · simp only [calculateNewStreak]
    rw [if_neg (by omega), if_pos (by omega)]

/-- **C5, witness** for `calculateNewStreak_spec`: previous streak 5, last
claim at the epoch, current claim 25 hours later. -/
theorem calculateNewStreak_spec_witness :
    (24 * 3600000 ≤ (90000000 : Int) - 0) ∧ ((90000000 : Int) - 0 ≤ 48 * 3600000) ∧
    (calculateNewStreak none 5 90000000 = 1 ∧
      calculateNewStreak (some 0) 5 90000000 = 5 + 1 ∧
      (∀ n : Int, 48 * 3600000 < n - 0 → calculateNewStreak (some 0) 5 n = 1) ∧
      (∀ n : Int, n - 0 < 24 * 3600000 → calculateNewStreak (some 0) 5 n = 5) ∧
      calculateNewStreak (some 0) 5 (0 + 25 * 3600000) = 5 + 1 ∧
      calculateNewStreak (some 0) 5 (0 + 49 * 3600000) = 1) :=
  ⟨by norm_num, by norm_num,
    calculateNewStreak_spec 5 0 90000000 (by norm_num) (by norm_num)⟩

/-- **C6.**  `addToPool` computes
`spaceInPool = max(0, 2500 − balance)`, `added = min(quarters, spaceInPool)`,
`overflow = quarters − added`, `overflowToStaking = ⌊overflow · 0.75⌋ =
⌊3·overflow/4⌋`, `overflowToOperations = overflow − overflowToStaking`, and
increases the stored pool balance by exactly `added`; at balance 2470 with
100 quarters this gives added 30, overflow 70, staking 52, operations 18. -/
theorem addToPool_overflow_split (db : PoolDb) (q : Int) (src : String)
    (hq : 0 ≤ q) (hb : 0 ≤ db.pool.balance) :
    (addToPool db q src).2.addedToPool
      = min q (max 0 (POOL_CAP - db.pool.balance)) ∧
    (addToPool db q src).2.overflowToStaking
      = (3 * (q - (addToPool db q src).2.addedToPool)).fdiv 4 ∧
    (addToPool db q src).2.overflowToOperations
      = (q - (addToPool db q src).2.addedToPool)
          - (addToPool db q src).2.overflowToStaking ∧
    0 ≤ q - (addToPool db q src).2.addedToPool ∧
    (addToPool db q src).1.pool.balance
      = db.pool.balance + (addToPool db q src).2.addedToPool ∧
    (addToPool poolDb2470 100 "purchase_donation").2
      = ⟨30, 52, 18⟩ ∧
    (addToPool poolDb2470 100 "purchase_donation").1.pool.balance = 2500 := by
  have hsnd : (addToPool db q src).2 =
      ⟨min q (max 0 (POOL_CAP - db.pool.balance)),
        ((q - min q (max 0 (POOL_CAP - db.pool.balance))) *
          OVERFLOW_STAKING_PERCENT).fdiv 100,
        (q - min q (max 0 (POOL_CAP - db.pool.balance))) -
          ((q - min q (max 0 (POOL_CAP - db.pool.balance))) *
            OVERFLOW_STAKING_PERCENT).fdiv 100⟩ := rfl
  refine ⟨rfl, ?_, rfl, ?_, ?_, by decide, by decide⟩
  · rw [hsnd]
    exact mul75_fdiv_100 _
  · have ha : (addToPool db q src).2.addedToPool
        = min q (max 0 (POOL_CAP - db.pool.balance)) := rfl
    rw [ha]
    unfold POOL_CAP
    omega
  · rw [hsnd]
    show (if _ ∨ _ then _ else db).pool.balance = _
    split_ifs with hgt
    · rfl
    · simp only [not_or, not_lt] at hgt
      have : min q (max 0 (POOL_CAP - db.pool.balance)) = 0 := by
        unfold POOL_CAP at hgt ⊢
        omega
      simp [this]

/-- **C6, witness** for `addToPool_overflow_split` at the spec's example
(balance 2470, 100 quarters). -/
theorem addToPool_overflow_split_witness :
    ((0 : Int) ≤ 100) ∧ (0 ≤ poolDb2470.pool.balance) ∧
    ((addToPool poolDb2470 100 "purchase_donation").2.addedToPool
        = min 100 (max 0 (POOL_CAP - poolDb2470.pool.balance)) ∧
      (addToPool poolDb2470 100 "purchase_donation").2.overflowToStaking
        = (3 * (100 - (addToPool poolDb2470 100 "purchase_donation").2.addedToPool)).fdiv 4 ∧
      (addToPool poolDb2470 100 "purchase_donation").2.overflowToOperations
        = (100 - (addToPool poolDb2470 100 "purchase_donation").2.addedToPool)
            - (addToPool poolDb2470 100 "purchase_donation").2.overflowToStaking ∧
      0 ≤ 100 - (addToPool poolDb2470 100 "purchase_donation").2.addedToPool ∧
      (addToPool poolDb2470 100 "purchase_donation").1.pool.balance
        = poolDb2470.pool.balance
            + (addToPool poolDb2470 100 "purchase_donation").2.addedToPool ∧
      (addToPool poolDb2470 100 "purchase_donation").2 = ⟨30, 52, 18⟩ ∧
      (addToPool poolDb2470 100 "purchase_donation").1.pool.balance = 2500) :=
  ⟨by norm_num, by decide,
    addToPool_overflow_split poolDb2470 100 "purchase_donation"
      (by norm_num) (by decide)⟩

/-- **C1.**  The claim (and the spec's idempotency guard) requires that a
second delivery of the same `TimePurchased` log — same transaction id —
leaves `total_time_purchased` and `cached_time_balance` unchanged.  The
handler does insert the uniquely-keyed raw-event row first, and the second
insert is indeed rejected by the `tx_hash UNIQUE` key (the raw-event table
still has one row), but the source never checks the insert's error result:
the player update runs unconditionally, so the second delivery re-applies
the 900-second delta (1800 total instead of 900).  This theorem evaluates
the handler at that failing input. -/
theorem handleTimePurchased_not_idempotent :
    getPlayer (handleTimePurchased purchaseDb purchaseLog) "alice"
      = some { total_time_purchased := 900, cached_time_balance := 900
               total_time_consumed := 0, cached_staked_balance := 0
               total_tips_sent := 0, total_tips_received := 0 } ∧
    (handleTimePurchased purchaseDb purchaseLog).time_purchases.length = 1 ∧
    (handleTimePurchased (handleTimePurchased purchaseDb purchaseLog)
        purchaseLog).time_purchases.length = 1 ∧
    getPlayer (handleTimePurchased (handleTimePurchased purchaseDb purchaseLog)
        purchaseLog) "alice"
      = some { total_time_purchased := 1800, cached_time_balance := 1800
               total_time_consumed := 0, cached_staked_balance := 0
               total_tips_sent := 0, total_tips_received := 0 } := by
  decide

/-- **C2, counterexample.**  The claim states that an entry previously
marked `failed` by the settlement path is never moved to `confirmed` by
`handleTimeConsumed`.  But the handler's confirm-update filters only on
`tx_hash`, with no condition on the current status: delivering the
`TimeConsumed` log for transaction `"0xt1"` flips the `failed` row to
`confirmed`. -/
theorem handleTimeConsumed_overrides_failed :
    failedRow.status = .failed ∧
    (handleTimeConsumed failedRowDb ⟨"bob", 100, "0xt1"⟩ 777).time_consumptions.map
        (fun r => r.status) = [.confirmed] := by
  decide

/-- **C2** (amended).  The terminality the claim states does not hold:
`handleTimeConsumed` (resp. `handleTipExecuted`) sets the status of every
`time_consumptions` (resp. `tips`) row whose `tx_hash` matches the log's
transaction id to `confirmed` regardless of the row's current status —
including rows the settlement path already marked `failed` — while rows
with a different (or null) `tx_hash` keep their status, and no row is
added or removed. -/
theorem reconciliation_confirm_unconditional (db : Db)
    (clog : TimeConsumedLog) (tlog : TipExecutedLog) (now : Int) :
    (handleTimeConsumed db clog now).time_consumptions.map (fun r => r.status)
      = db.time_consumptions.map (fun r =>
          if r.tx_hash == some clog.tx_hash then .confirmed else r.status) ∧
    (handleTimeConsumed db clog now).time_consumptions.map (fun r => r.id)
      = db.time_consumptions.map (fun r => r.id) ∧
    (handleTipExecuted db tlog now).tips.map (fun r => r.status)
      = db.tips.map (fun r =>
          if r.tx_hash == some tlog.tx_hash then .confirmed else r.status) ∧
    (handleTipExecuted db tlog now).tips.map (fun r => r.id)
      = db.tips.map (fun r => r.id) := by
  have h1 : (handleTimeConsumed db clog now).time_consumptions
      = db.time_consumptions.map (fun r =>
          if r.tx_hash == some clog.tx_hash then
            { r with status := .confirmed, confirmed_at := some now }
          else r) := by
    unfold handleTimeConsumed
    cases hm : getPlayer db clog.player <;> simp [setPlayer]
  have h2 : (handleTipExecuted db tlog now).tips
      = db.tips.map (fun r =>
          if r.tx_hash == some tlog.tx_hash then
            { r with status := .confirmed, confirmed_at := some now }
          else r) := rfl
  refine ⟨?_, ?_, ?_, ?_⟩
  · rw [h1, List.map_map]
    refine List.map_congr_left (fun r _ => ?_)
    by_cases h : (r.tx_hash == some clog.tx_hash) <;> simp [Function.comp, h]
  · rw [h1, List.map_map]
    refine List.map_congr_left (fun r _ => ?_)
    by_cases h : (r.tx_hash == some clog.tx_hash) <;> simp [Function.comp, h]
  · rw [h2, List.map_map]
    refine List.map_congr_left (fun r _ => ?_)
    by_cases h : (r.tx_hash == some tlog.tx_hash) <;> simp [Function.comp, h]
  · rw [h2, List.map_map]
    refine List.map_congr_left (fun r _ => ?_)
    by_cases h : (r.tx_hash == some tlog.tx_hash) <;> simp [Function.comp, h]

/-- Updating the freshly inserted ledger row by its id touches exactly that
row when no pre-existing row carries the id. -/
lemma updateConsumption_append (db : Db) (row : ConsumptionRow)
    (f : ConsumptionRow → ConsumptionRow) (nid : Nat)
    (hfresh : ∀ r ∈ db.time_consumptions, r.id ≠ nid) (hid : row.id = nid) :
    updateConsumption
        { db with time_consumptions := db.time_consumptions ++ [row] } nid f
      = { db with time_consumptions := db.time_consumptions ++ [f row] } := by
  have hl : (db.time_consumptions ++ [row]).map
      (fun r => if r.id == nid then f r else r)
      = db.time_consumptions ++ [f row] := by
    rw [List.map_append]
    congr 1
    · conv_rhs => rw [← List.map_id db.time_consumptions]
      refine List.map_congr_left (fun r hr => ?_)
      simp [hfresh r hr]
    · simp [hid]
  exact congrArg (fun L => { db with time_consumptions := L }) hl

/-- Same statement for the `tips` table. -/
lemma updateTip_append (db : Db) (row : TipRow) (f : TipRow → TipRow)
    (nid : Nat) (hfresh : ∀ r ∈ db.tips, r.id ≠ nid) (hid : row.id = nid) :
    updateTip { db with tips := db.tips ++ [row] } nid f
      = { db with tips := db.tips ++ [f row] } := by
  have hl : (db.tips ++ [row]).map (fun r => if r.id == nid then f r else r)
      = db.tips ++ [f row] := by
    rw [List.map_append]
    congr 1
    · conv_rhs => rw [← List.map_id db.tips]
      refine List.map_congr_left (fun r hr => ?_)
      simp [hfresh r hr]
    · simp [hid]
  exact congrArg (fun L => { db with tips := L }) hl

/-- **C9, counterexample.**  The claim states that both settlement
operations re-raise the error to the caller after recording the failure.
`executeTip` does record the failure (the ledger row ends `failed` with the
error text) but its `catch` returns `null` instead of re-throwing: at a
concrete input whose submission leg reverts, the outcome is a normal
`null` return, not a thrown error. -/
theorem executeTip_swallows_error :
    (executeTip tipFailEnv emptyDb ⟨1, 2, 500⟩ 7 0).2
      = .value none ∧
    (executeTip tipFailEnv emptyDb ⟨1, 2, 500⟩ 7 0).1.tips.map
        (fun r => (r.status, r.error_message))
      = [(.failed, some "execution reverted")] := by
  decide

/-- **C9** (amended).  When the submit or confirmation-wait leg fails after
the pending row was created, both operations record the failure on the
ledger row (status `failed` with the error text); `consumeTime` re-raises
the error to its caller, while `executeTip` catches it and returns `null`
instead of re-raising. -/
theorem settlement_failure_recorded
    (db : Db) (sid : String) (secs : Int) (nid : Nat) (now : Int)
    (session : SessionRow) (e : String) (bal : Int)
    (wait : Except String Bool) (tx : String) (cmd : TipCommand)
    (fw tw : String) (fwRest twRest : List String)
    (wait' : Except String Bool) (notify' : Except String Unit)
    (hsess : getSession db sid = some session)
    (hact : session.status = .active)
    (hbal : ¬ bal < secs)
    (hfreshC : ∀ r ∈ db.time_consumptions, r.id ≠ nid)
    (hfreshT : ∀ r ∈ db.tips, r.id ≠ nid) :
    (consumeTime ⟨bal, .error e, wait⟩ db sid secs nid now).2 = .thrown e ∧
    (consumeTime ⟨bal, .error e, wait⟩ db sid secs nid now).1
      = { db with time_consumptions := db.time_consumptions ++
          [{ id := nid, session_id := some sid
             wallet_address := session.wallet_address
             seconds_consumed := secs, tx_hash := none, status := .failed
             error_message := some e, confirmed_at := none }] } ∧
    (consumeTime ⟨bal, .ok tx, .error e⟩ db sid secs nid now).2 = .thrown e ∧
    (consumeTime ⟨bal, .ok tx, .error e⟩ db sid secs nid now).1
      = { db with time_consumptions := db.time_consumptions ++
          [{ id := nid, session_id := some sid
             wallet_address := session.wallet_address
             seconds_consumed := secs, tx_hash := some tx, status := .failed
             error_message := some e, confirmed_at := none }] } ∧
    (executeTip ⟨some (fw :: fwRest), some (tw :: twRest), .error e, wait', notify'⟩
        db cmd nid now).2 = .value none ∧
    (executeTip ⟨some (fw :: fwRest), some (tw :: twRest), .error e, wait', notify'⟩
        db cmd nid now).1
      = { db with tips := db.tips ++
          [{ id := nid, from_wallet := fw, to_wallet := tw
             amount_wei := cmd.amount, tx_hash := none, status := .failed
             error_message := some e, confirmed_at := none }] } := by
  have hred : ∀ env : ConsumeEnv, env.balance = bal →
      consumeTime env db sid secs nid now
        = (match env.submit with
           | .error err =>
             (updateConsumption
               { db with time_consumptions := db.time_consumptions ++
                   [{ id := nid, session_id := some sid
                      wallet_address := session.wallet_address
                      seconds_consumed := secs, tx_hash := none
                      status := .pending, error_message := none
                      confirmed_at := none }] } nid
               (fun r => { r with status := .failed, error_message := some err }),
              .thrown err)
           | .ok txh =>
             let db2 := updateConsumption
               { db with time_consumptions := db.time_consumptions ++
                   [{ id := nid, session_id := some sid
                      wallet_address := session.wallet_address
                      seconds_consumed := secs, tx_hash := none
                      status := .pending, error_message := none
                      confirmed_at := none }] } nid
               (fun r => { r with tx_hash := some txh, status := .submitted })
             match env.wait with
             | .error err =>
               (updateConsumption db2 nid
                 (fun r => { r with status := .failed, error_message := some err }),
                .thrown err)
             | .ok false =>
               (updateConsumption db2 nid
                 (fun r => { r with status := .failed,
                                    error_message := some "Transaction failed" }),
                .thrown "Transaction failed")
             | .ok true =>
               let db3 := updateSessionTimeConsumed db2 sid secs
               let db4 := updateConsumption db3 nid
                 (fun r => { r with status := .confirmed, confirmed_at := some now })
               (db4, .value
                 { id := nid, session_id := some sid
                   wallet_address := session.wallet_address
                   seconds_consumed := secs, tx_hash := some txh
                   status := .confirmed, error_message := none
                   confirmed_at := none })) := by
    intro env henv
    unfold consumeTime
    rw [hsess]
    simp only [hact, henv]
    rw [if_neg (by simp), if_neg hbal]
  refine ⟨?_, ?_, ?_, ?_, ?_, ?_⟩
  · rw [hred ⟨bal, .error e, wait⟩ rfl]
  · rw [hred ⟨bal, .error e, wait⟩ rfl]
    simp only
    rw [updateConsumption_append db _ _ nid hfreshC rfl]
  · rw [hred ⟨bal, .ok tx, .error e⟩ rfl]
  · rw [hred ⟨bal, .ok tx, .error e⟩ rfl]
    simp only
    rw [updateConsumption_append db _ _ nid hfreshC rfl,
      updateConsumption_append db _ _ nid hfreshC rfl]
  · unfold executeTip
    simp only
    rw [if_neg (by simp), if_neg (by simp)]
  · unfold executeTip
    simp only
    rw [if_neg (by simp), if_neg (by simp)]
    simp only
    rw [updateTip_append db _ _ nid hfreshT rfl]
    simp

/-- **C9, witness** for `settlement_failure_recorded`: an active session,
balance 100, a 60-second consumption whose submit leg throws `"timeout"`,
and a tip between two verified wallets whose submit leg throws the same
error. -/
theorem settlement_failure_recorded_witness :
    getSession sessionDb "s1" = some activeSession ∧
    activeSession.status = .active ∧
    ¬ (100 : Int) < 60 ∧
    (∀ r ∈ sessionDb.time_consumptions, r.id ≠ 1) ∧
    (∀ r ∈ sessionDb.tips, r.id ≠ 1) ∧
    ((consumeTime ⟨100, .error "timeout", .ok true⟩ sessionDb "s1" 60 1 0).2
        = .thrown "timeout" ∧
      (consumeTime ⟨100, .error "timeout", .ok true⟩ sessionDb "s1" 60 1 0).1
        = { sessionDb with time_consumptions := sessionDb.time_consumptions ++
            [{ id := 1, session_id := some "s1"
               wallet_address := activeSession.wallet_address
               seconds_consumed := 60, tx_hash := none, status := .failed
               error_message := some "timeout", confirmed_at := none }] } ∧
      (consumeTime ⟨100, .ok "0xc1", .error "timeout"⟩ sessionDb "s1" 60 1 0).2
        = .thrown "timeout" ∧
      (consumeTime ⟨100, .ok "0xc1", .error "timeout"⟩ sessionDb "s1" 60 1 0).1
        = { sessionDb with time_consumptions := sessionDb.time_consumptions ++
            [{ id := 1, session_id := some "s1"
               wallet_address := activeSession.wallet_address
               seconds_consumed := 60, tx_hash := some "0xc1", status := .failed
               error_message := some "timeout", confirmed_at := none }] } ∧
      (executeTip ⟨some ("fa" :: []), some ("ta" :: []), .error "timeout",
          .ok true, .ok ()⟩ sessionDb ⟨1, 2, 500⟩ 1 0).2 = .value none ∧
      (executeTip ⟨some ("fa" :: []), some ("ta" :: []), .error "timeout",
          .ok true, .ok ()⟩ sessionDb ⟨1, 2, 500⟩ 1 0).1
        = { sessionDb with tips := sessionDb.tips ++
            [{ id := 1, from_wallet := "fa", to_wallet := "ta"
               amount_wei := (500 : Int), tx_hash := none, status := .failed
               error_message := some "timeout", confirmed_at := none }] }) :=
  ⟨by decide, by decide, by decide, by simp [sessionDb], by simp [sessionDb],
    settlement_failure_recorded sessionDb "s1" 60 1 0 activeSession "timeout"
      100 (.ok true) "0xc1" ⟨1, 2, 500⟩ "fa" "ta" [] [] (.ok true) (.ok ())
      (by decide) (by decide) (by decide) (by simp [sessionDb])
      (by simp [sessionDb])⟩

/-- **C10.**  For a wallet past its cooldown, when the pool balance is 0
`claimFromPool` returns `claimed = 0` without invoking the on-chain payout
and with the datastore completely unchanged (pool state, claim states,
claim history and the instrumented on-chain call trace included): the
freshly recomputed streak appears only in the returned value. -/
theorem claimFromPool_empty_pool_noop (env : ClaimEnv) (db : PoolDb)
    (w : String) (pid : Option String) (now : Int)
    (hallow : (canClaim db w now).allowed = true)
    (hbal : db.pool.balance = 0) :
    claimFromPool env db w pid now
      = (db, .value
          { claimed := 0
            poolBalanceAfter := 0
            streak := calculateNewStreak
              ((getClaimState db w).bind (fun c => c.last_claim_time))
              (((getClaimState db w).map (fun c => c.streak)).getD 0) now
            nextClaimTime := getNextResetTime now
            cooldownActive := false
            txHash := none }) := by
  have hmin : min (getMaxClaimable (calculateNewStreak
      ((getClaimState db w).bind (fun c => c.last_claim_time))
      (((getClaimState db w).map (fun c => c.streak)).getD 0) now)) 0 = 0 :=
    min_eq_right (le_trans zero_le_one (getMaxClaimable_pos _))
  simp only [claimFromPool, hallow, hbal, hmin]
  simp

/-- **C10, witness** for `claimFromPool_empty_pool_noop`: a first-time
claimer against an empty pool (the on-chain leg would throw if it were
reached). -/
theorem claimFromPool_empty_pool_noop_witness :
    (canClaim emptyPoolDb "w" 1000000).allowed = true ∧
    emptyPoolDb.pool.balance = 0 ∧
    claimFromPool ⟨.error "no wallet"⟩ emptyPoolDb "w" none 1000000
      = (emptyPoolDb, .value
          { claimed := 0
            poolBalanceAfter := 0
            streak := calculateNewStreak
              ((getClaimState emptyPoolDb "w").bind (fun c => c.last_claim_time))
              (((getClaimState emptyPoolDb "w").map (fun c => c.streak)).getD 0)
              1000000
            nextClaimTime := getNextResetTime 1000000
            cooldownActive := false
            txHash := none }) :=
  ⟨by decide, by decide,
    claimFromPool_empty_pool_noop ⟨.error "no wallet"⟩ emptyPoolDb "w" none
      1000000 (by decide) (by decide)⟩

/-! ## Indexer lemmas -/

lemma ckptLE_refl (o : Option Nat) : ckptLE o o := by
  cases o with
  | none => trivial
  | some a => exact le_refl a

lemma ckptLE_trans {a b c : Option Nat} (h1 : ckptLE a b) (h2 : ckptLE b c) :
    ckptLE a c := by
  cases a with
  | none => trivial
  | some x =>
    cases b with
    | none => exact absurd h1 (by simp [ckptLE])
    | some y =>
      cases c with
      | none => exact absurd h2 (by simp [ckptLE])
      | some z => exact le_trans h1 h2

lemma lookupCkpt_cons (p : String × Nat) (rest : List (String × Nat))
    (n : String) :
    lookupCkpt (p :: rest) n
      = if p.1 = n then some p.2 else lookupCkpt rest n := by
  by_cases h : p.1 = n
  · rw [lookupCkpt, List.find?_cons_of_pos _ (by simp [h]), if_pos h]
    rfl
  · rw [lookupCkpt, List.find?_cons_of_neg _ (by simp [h]), if_neg h]
    rfl

lemma lookupCkpt_upsert (cs : List (String × Nat)) (name n : String)
    (v : Nat) :
    lookupCkpt (upsertCkpt cs name v) n
      = if n = name then some v else lookupCkpt cs n := by
  induction cs with
  | nil =>
    rw [upsertCkpt, lookupCkpt_cons]
    by_cases h : n = name
    · simp [h]
    · rw [if_neg (fun he => h he.symm), if_neg h]
  | cons p rest ih =>
    rw [upsertCkpt]
    by_cases h1 : p.1 = name
    · rw [if_pos (by simp [h1])]
      rw [lookupCkpt_cons, lookupCkpt_cons]
      by_cases h2 : n = name
      · rw [if_pos (h1.trans h2.symm), if_pos h2]
      · have hpn : ¬ p.1 = n := fun he => h2 (he.symm.trans h1)
        rw [if_neg hpn, if_neg hpn, if_neg h2]
    · rw [if_neg (by simp [h1])]
      rw [lookupCkpt_cons, lookupCkpt_cons]
      by_cases h2 : p.1 = n
      · have hnn : ¬ n = name := fun he => h1 (h2.trans he)
        rw [if_pos h2, if_neg hnn, if_pos h2]
      · rw [if_neg h2, if_neg h2, ih]

lemma processLogs_checkpoints (logs : List TLog) (st : IndexState) :
    (processLogs logs st).checkpoints = st.checkpoints := by
  induction logs generalizing st with
  | nil => rfl
  | cons l rest ih => exact (ih _).trans rfl

lemma processLogs_ckptWrites (logs : List TLog) (st : IndexState) :
    (processLogs logs st).ckptWrites = st.ckptWrites := by
  induction logs generalizing st with
  | nil => rfl
  | cons l rest ih => exact (ih _).trans rfl

lemma processLogs_fetched (logs : List TLog) (st : IndexState) :
    (processLogs logs st).fetched = st.fetched := by
  induction logs generalizing st with
  | nil => rfl
  | cons l rest ih => exact (ih _).trans rfl

lemma processLogs_attempted (logs : List TLog) (st : IndexState) :
    (processLogs logs st).attempted
      = st.attempted ++ logs.map (fun l => l.txHash) := by
  induction logs generalizing st with
  | nil => simp [processLogs]
  | cons l rest ih => exact (ih _).trans (by simp)

lemma processLogs_handlerErrors (logs : List TLog) (st : IndexState) :
    (processLogs logs st).handlerErrors
      = st.handlerErrors
          ++ (logs.filter (fun l => l.handlerFails)).map (fun l => l.txHash) := by
  induction logs generalizing st with
  | nil => simp [processLogs]
  | cons l rest ih =>
    refine (ih _).trans ?_
    by_cases h : l.handlerFails <;> simp [List.filter_cons, h]

lemma subRangesAux_mem_bounds (batch toB : Nat) (hb : 1 ≤ batch) :
    ∀ (fuel start : Nat) (r : Nat × Nat),
      r ∈ subRangesAux batch toB fuel start →
      start ≤ r.1 ∧ r.1 ≤ r.2 ∧ r.2 ≤ toB := by
  intro fuel
  induction fuel with
  | zero => intro start r hr; simp [subRangesAux] at hr
  | succ f ih =>
    intro start r hr
    rw [subRangesAux] at hr
    by_cases h : toB < start
    · rw [if_pos h] at hr; simp at hr
    · rw [if_neg h] at hr
      rcases List.mem_cons.mp hr with h1 | h1
      · subst h1
        refine ⟨le_refl _, ?_, ?_⟩ <;> simp <;> omega
      · have := ih (start + batch) r h1
        omega

lemma chainedFrom_mono {lo lo' : Nat} (h : lo' ≤ lo) :
    ∀ {l : List (Nat × Nat)}, ChainedFrom lo l → ChainedFrom lo' l := by
  intro l hl
  cases l with
  | nil => trivial
  | cons r rest => exact ⟨le_trans h hl.1, hl.2⟩

lemma subRangesAux_chained (batch toB : Nat) (hb : 1 ≤ batch) :
    ∀ (fuel start : Nat),
      ChainedFrom start (subRangesAux batch toB fuel start) := by
  intro fuel
  induction fuel with
  | zero => intro start; trivial
  | succ f ih =>
    intro start
    rw [subRangesAux]
    by_cases h : toB < start
    · rw [if_pos h]; trivial
    · rw [if_neg h]
      refine ⟨by simp; omega, ?_⟩
      refine chainedFrom_mono ?_ (ih (start + batch))
      simp
      omega

lemma subRangesAux_covers (batch toB : Nat) (hb : 1 ≤ batch) :
    ∀ (fuel start : Nat), toB + 1 - start ≤ fuel →
      ∀ blk : Nat,
        (∃ r ∈ subRangesAux batch toB fuel start, r.1 ≤ blk ∧ blk ≤ r.2)
          ↔ (start ≤ blk ∧ blk ≤ toB) := by
  intro fuel
  induction fuel with
  | zero =>
    intro start hfuel blk
    simp [subRangesAux]
    omega
  | succ f ih =>
    intro start hfuel blk
    rw [subRangesAux]
    by_cases h : toB < start
    · rw [if_pos h]
      simp
      omega
    · rw [if_neg h]
      constructor
      · rintro ⟨r, hr, hblk⟩
        rcases List.mem_cons.mp hr with h1 | h1
        · subst h1
          simp at hblk
          omega
        · have := subRangesAux_mem_bounds batch toB hb f (start + batch) r h1
          omega
      · rintro ⟨hlo, hhi⟩
        by_cases hin : blk ≤ min (start + batch - 1) toB
        · exact ⟨(start, min (start + batch - 1) toB),
            List.mem_cons_self _ _, hlo, hin⟩
        · have hcov := (ih (start + batch) (by omega) blk).mpr (by omega)
          rcases hcov with ⟨r, hr, hblk⟩
          exact ⟨r, List.mem_cons_of_mem _ hr, hblk⟩

lemma runRanges_mono (env : TickEnv) (name : String) :
    ∀ (ranges : List (Nat × Nat)) (st : IndexState) (lo : Nat),
      ChainedFrom lo ranges →
      (∀ c, lookupCkpt st.checkpoints name = some c → c < lo) →
      ∀ n, ckptLE (lookupCkpt st.checkpoints n)
        (lookupCkpt (runRanges env name ranges st).1.checkpoints n) := by
  intro ranges
  induction ranges with
  | nil => intro st lo _ _ n; exact ckptLE_refl _
  | cons r rest ih =>
    intro st lo hchain hlow n
    obtain ⟨s, e⟩ := r
    rw [runRanges]
    cases hf : env.fetch name s e with
    | error msg => exact ckptLE_refl _
    | ok logs =>
      have hlook2 : ∀ m,
          lookupCkpt (writeCkpt (processLogs logs
              { st with fetched := st.fetched ++ [(name, s, e)] })
            name e).checkpoints m
          = if m = name then some e else lookupCkpt st.checkpoints m := by
        intro m
        rw [writeCkpt]
        simp only
        rw [lookupCkpt_upsert, processLogs_checkpoints]
      have hstep : ckptLE (lookupCkpt st.checkpoints n)
          (lookupCkpt (writeCkpt (processLogs logs
              { st with fetched := st.fetched ++ [(name, s, e)] })
            name e).checkpoints n) := by
        rw [hlook2]
        by_cases hn : n = name
        · rw [if_pos hn, hn]
          cases hc : lookupCkpt st.checkpoints name with
          | none => trivial
          | some c =>
            have h1 := hlow c hc
            have h2 := hchain.1
            show c ≤ e
            omega
        · rw [if_neg hn]
          exact ckptLE_refl _
      refine ckptLE_trans hstep (ih _ (e + 1) hchain.2 (fun c hc => ?_) n)
      rw [hlook2 name, if_pos rfl] at hc
      injection hc with h
      omega

lemma runRanges_writes (env : TickEnv) (name : String) (bound : Nat) :
    ∀ (ranges : List (Nat × Nat)) (st : IndexState),
      (∀ r ∈ ranges, r.2 ≤ bound) →
      ∀ w ∈ (runRanges env name ranges st).1.ckptWrites,
        w ∈ st.ckptWrites ∨ w.2 ≤ bound := by
  intro ranges
  induction ranges with
  | nil => intro st _ w hw; exact Or.inl hw
  | cons r rest ih =>
    intro st hr w hw
    obtain ⟨s, e⟩ := r
    rw [runRanges] at hw
    cases hf : env.fetch name s e with
    | error msg =>
      rw [hf] at hw
      exact Or.inl hw
    | ok logs =>
      rw [hf] at hw
      have := ih _ (fun q hq => hr q (List.mem_cons_of_mem _ hq)) w hw
      rcases this with hin | hle
      · have hw2 : (writeCkpt (processLogs logs
            { st with fetched := st.fetched ++ [(name, s, e)] })
            name e).ckptWrites = st.ckptWrites ++ [(name, e)] := by
          rw [writeCkpt]
          simp only
          rw [processLogs_ckptWrites]
        rw [hw2] at hin
        rcases List.mem_append.mp hin with h1 | h1
        · exact Or.inl h1
        · right
          have : w = (name, e) := List.mem_singleton.mp h1
          subst this
          exact hr (s, e) (List.mem_cons_self _ _)
      · exact Or.inr hle

lemma runRanges_fetched_ok (env : TickEnv) (name : String) :
    ∀ (ranges : List (Nat × Nat)) (st : IndexState),
      (∀ r ∈ ranges, ∃ logs, env.fetch name r.1 r.2 = .ok logs) →
      (runRanges env name ranges st).1.fetched
        = st.fetched ++ ranges.map (fun r => (name, r.1, r.2)) ∧
      (runRanges env name ranges st).2 = true := by
  intro ranges
  induction ranges with
  | nil => intro st _; simp [runRanges]
  | cons r rest ih =>
    intro st hok
    obtain ⟨s, e⟩ := r
    obtain ⟨logs, hf⟩ := hok (s, e) (List.mem_cons_self _ _)
    rw [runRanges, hf]
    have hrec := ih (writeCkpt (processLogs logs
        { st with fetched := st.fetched ++ [(name, s, e)] }) name e)
      (fun q hq => hok q (List.mem_cons_of_mem _ hq))
    have hfe : (writeCkpt (processLogs logs
        { st with fetched := st.fetched ++ [(name, s, e)] }) name e).fetched
        = st.fetched ++ [(name, s, e)] := by
      rw [writeCkpt]
      simp only
      rw [processLogs_fetched]
    refine ⟨?_, hrec.2⟩
    rw [hrec.1, hfe]
    simp

lemma subRanges_chained (batch f h : Nat) (hb : 1 ≤ batch) :
    ChainedFrom f (subRanges batch f h) :=
  subRangesAux_chained batch h hb _ f

lemma subRanges_mem_bounds (batch f h : Nat) (hb : 1 ≤ batch) :
    ∀ r ∈ subRanges batch f h, f ≤ r.1 ∧ r.1 ≤ r.2 ∧ r.2 ≤ h :=
  fun r hr => subRangesAux_mem_bounds batch h hb _ f r hr

lemma processPair_mono (env : TickEnv) (batch sb : Nat) (st : IndexState)
    (name : String) (hb : 1 ≤ batch) :
    ∀ n, ckptLE (lookupCkpt st.checkpoints n)
      (lookupCkpt (processPair env batch sb st name).1.checkpoints n) := by
  intro n
  unfold processPair
  cases hl : lookupCkpt st.checkpoints name with
  | some c =>
    simp only
    by_cases hh : env.head < c + 1
    · rw [if_pos hh]
      exact ckptLE_refl _
    · rw [if_neg hh]
      refine runRanges_mono env name _ st (c + 1)
        (subRanges_chained batch (c + 1) env.head hb) (fun c' hc' => ?_) n
      rw [hl] at hc'
      injection hc' with h
      omega
  | none =>
    simp only
    by_cases hh : env.head < sb
    · rw [if_pos hh]
      exact ckptLE_refl _
    · rw [if_neg hh]
      refine runRanges_mono env name _ st sb
        (subRanges_chained batch sb env.head hb) (fun c' hc' => ?_) n
      rw [hl] at hc'
      cases hc'

lemma processPair_writes (env : TickEnv) (batch sb : Nat) (st : IndexState)
    (name : String) (hb : 1 ≤ batch) :
    ∀ w ∈ (processPair env batch sb st name).1.ckptWrites,
      w ∈ st.ckptWrites ∨ w.2 ≤ env.head := by
  intro w hw
  unfold processPair at hw
  cases hl : lookupCkpt st.checkpoints name with
  | some c =>
    rw [hl] at hw
    simp only at hw
    by_cases hh : env.head < c + 1
    · rw [if_pos hh] at hw
      exact Or.inl hw
    · rw [if_neg hh] at hw
      exact runRanges_writes env name env.head _ st
        (fun r hr => (subRanges_mem_bounds batch (c + 1) env.head hb r hr).2.2)
        w hw
  | none =>
    rw [hl] at hw
    simp only at hw
    by_cases hh : env.head < sb
    · rw [if_pos hh] at hw
      exact Or.inl hw
    · rw [if_neg hh] at hw
      exact runRanges_writes env name env.head _ st
        (fun r hr => (subRanges_mem_bounds batch sb env.head hb r hr).2.2)
        w hw

lemma pollEvents_mono (env : TickEnv) (batch sb : Nat) (hb : 1 ≤ batch) :
    ∀ (pairs : List String) (st : IndexState) (n : String),
      ckptLE (lookupCkpt st.checkpoints n)
        (lookupCkpt (pollEvents env batch sb pairs st).1.checkpoints n) := by
  intro pairs
  induction pairs with
  | nil => intro st n; exact ckptLE_refl _
  | cons name rest ih =>
    intro st n
    rw [pollEvents]
    have hp := processPair_mono env batch sb st name hb n
    cases hpp : processPair env batch sb st name with
    | mk st1 ok =>
      rw [hpp] at hp
      cases ok with
      | true => exact ckptLE_trans hp (ih st1 n)
      | false => exact hp

lemma pollEvents_writes (env : TickEnv) (batch sb : Nat) (hb : 1 ≤ batch) :
    ∀ (pairs : List String) (st : IndexState),
      ∀ w ∈ (pollEvents env batch sb pairs st).1.ckptWrites,
        w ∈ st.ckptWrites ∨ w.2 ≤ env.head := by
  intro pairs
  induction pairs with
  | nil => intro st w hw; exact Or.inl hw
  | cons name rest ih =>
    intro st w hw
    rw [pollEvents] at hw
    have hpw := processPair_writes env batch sb st name hb w
    cases hpp : processPair env batch sb st name with
    | mk st1 ok =>
      rw [hpp] at hw hpw
      cases ok with
      | true =>
        rcases ih st1 w hw with h1 | h1
        · exact hpw h1
        · exact Or.inr h1
      | false => exact hpw hw

lemma runTicks_mono (batch sb : Nat) (hb : 1 ≤ batch) (pairs : List String) :
    ∀ (envs : List TickEnv) (st : IndexState) (n : String),
      ckptLE (lookupCkpt st.checkpoints n)
        (lookupCkpt (runTicks batch sb pairs envs st).checkpoints n) := by
  intro envs
  induction envs with
  | nil => intro st n; exact ckptLE_refl _
  | cons env rest ih =>
    intro st n
    exact ckptLE_trans (pollEvents_mono env batch sb hb pairs st n) (ih _ n)

/-- **C3.**  Checkpoint monotonicity and gaplessness.  With a checkpoint
at block `c` and the head beyond it, the tick's fetch trace for that pair
is exactly the sub-range split of `[c + 1, head]` (so it starts at
`c + 1`), and that split covers precisely the blocks `c + 1 … head` —
no block ≤ `c` is re-read and none of `c + 1 … head` is skipped.  Every
checkpoint value written during a tick is ≤ the head observed at the start
of that tick, and across any sequence of ticks every pair's checkpoint is
non-decreasing. -/
theorem indexer_checkpoint_spec
    (env : TickEnv) (batch sb : Nat) (st : IndexState) (name : String)
    (pairs : List String) (envs : List TickEnv) (c : Nat)
    (hb : 1 ≤ batch) :
    (lookupCkpt st.checkpoints name = some c → c < env.head →
      (∀ r ∈ subRanges batch (c + 1) env.head,
        ∃ logs, env.fetch name r.1 r.2 = .ok logs) →
      (processPair env batch sb st name).1.fetched
        = st.fetched ++ (subRanges batch (c + 1) env.head).map
            (fun r => (name, r.1, r.2))) ∧
    (∀ blk : Nat,
      (∃ r ∈ subRanges batch (c + 1) env.head, r.1 ≤ blk ∧ blk ≤ r.2)
        ↔ (c + 1 ≤ blk ∧ blk ≤ env.head)) ∧
    (∀ w ∈ (pollEvents env batch sb pairs st).1.ckptWrites,
      w ∈ st.ckptWrites ∨ w.2 ≤ env.head) ∧
    (∀ n, ckptLE (lookupCkpt st.checkpoints n)
      (lookupCkpt (runTicks batch sb pairs envs st).checkpoints n)) := by
  refine ⟨?_, ?_, pollEvents_writes env batch sb hb pairs st,
    runTicks_mono batch sb hb pairs envs st⟩
  · intro hck hlt hfetch
    unfold processPair
    rw [hck]
    simp only
    rw [if_neg (show ¬ env.head < c + 1 by omega)]
    exact (runRanges_fetched_ok env name _ st hfetch).1
  · intro blk
    exact subRangesAux_covers batch env.head hb _ (c + 1) (le_refl _) blk

/-- **C3, witness** for `indexer_checkpoint_spec`: checkpoint 2, head 5,
batch 2, two consecutive all-successful ticks. -/
theorem indexer_checkpoint_spec_witness :
    1 ≤ 2 ∧
    ((lookupCkpt ckpt2State.checkpoints "A" = some 2 → 2 < okEnv.head →
      (∀ r ∈ subRanges 2 (2 + 1) okEnv.head,
        ∃ logs, okEnv.fetch "A" r.1 r.2 = .ok logs) →
      (processPair okEnv 2 0 ckpt2State "A").1.fetched
        = ckpt2State.fetched ++ (subRanges 2 (2 + 1) okEnv.head).map
            (fun r => ("A", r.1, r.2))) ∧
    (∀ blk : Nat,
      (∃ r ∈ subRanges 2 (2 + 1) okEnv.head, r.1 ≤ blk ∧ blk ≤ r.2)
        ↔ (2 + 1 ≤ blk ∧ blk ≤ okEnv.head)) ∧
    (∀ w ∈ (pollEvents okEnv 2 0 ["A"] ckpt2State).1.ckptWrites,
      w ∈ ckpt2State.ckptWrites ∨ w.2 ≤ okEnv.head) ∧
    (∀ n, ckptLE (lookupCkpt ckpt2State.checkpoints n)
      (lookupCkpt (runTicks 2 0 ["A"] [okEnv, okEnv] ckpt2State).checkpoints n))) :=
  ⟨by norm_num,
    indexer_checkpoint_spec okEnv 2 0 ckpt2State "A" ["A"] [okEnv, okEnv] 2
      (by norm_num)⟩

/-- **C7.**  Poisoned-log tolerance: when a sub-range's fetch succeeds,
every log of the sub-range is handed to its handler in order — a throwing
handler is only recorded in the error log, never aborting the sub-range —
and the state passed to the remaining sub-ranges carries the checkpoint
persisted as this sub-range's end block, all regardless of how many
handlers failed (the statement quantifies over arbitrary
`handlerFails` flags in `logs`). -/
theorem subrange_poisoned_log_tolerance (env : TickEnv) (name : String)
    (s e : Nat) (rest : List (Nat × Nat)) (st : IndexState)
    (logs : List TLog) (hfetch : env.fetch name s e = .ok logs) :
    ∃ st' : IndexState,
      runRanges env name ((s, e) :: rest) st = runRanges env name rest st' ∧
      st'.attempted = st.attempted ++ logs.map (fun l => l.txHash) ∧
      st'.handlerErrors = st.handlerErrors
        ++ (logs.filter (fun l => l.handlerFails)).map (fun l => l.txHash) ∧
      lookupCkpt st'.checkpoints name = some e := by
  refine ⟨writeCkpt (processLogs logs
      { st with fetched := st.fetched ++ [(name, s, e)] }) name e,
    ?_, ?_, ?_, ?_⟩
  · rw [runRanges, hfetch]
  · rw [writeCkpt]
    simp only
    rw [processLogs_attempted]
  · rw [writeCkpt]
    simp only
    rw [processLogs_handlerErrors]
  · rw [writeCkpt]
    simp only
    rw [lookupCkpt_upsert, processLogs_checkpoints, if_pos rfl]

/-- **C7, witness** for `subrange_poisoned_log_tolerance`: a sub-range with
three logs whose middle handler throws; all three are attempted and the
checkpoint still lands on the sub-range end 5. -/
theorem subrange_poisoned_log_tolerance_witness :
    mixedEnv.fetch "A" 1 5 = .ok mixedLogs ∧
    (∃ st' : IndexState,
      runRanges mixedEnv "A" [(1, 5)] ckpt2State
        = runRanges mixedEnv "A" [] st' ∧
      st'.attempted = ckpt2State.attempted
        ++ mixedLogs.map (fun l => l.txHash) ∧
      st'.handlerErrors = ckpt2State.handlerErrors
        ++ (mixedLogs.filter (fun l => l.handlerFails)).map
            (fun l => l.txHash) ∧
      lookupCkpt st'.checkpoints "A" = some 5) :=
  ⟨rfl, subrange_poisoned_log_tolerance mixedEnv "A" 1 5 [] ckpt2State
    mixedLogs rfl⟩

/-- **C8, counterexample.**  The claim states that when `getLogs` fails for
one pair, the remaining pairs of the same tick are unaffected.  But
`pollEvents` has no per-pair catch: the exception aborts the whole tick, so
with pairs `["A", "B"]` both checkpointed at 100 and head 105, a fetch
failure on `"A"` leaves `"B"` unprocessed (nothing was even fetched for it)
— whereas the same tick run on `"B"` alone advances its checkpoint
to 105. -/
theorem rpc_failure_skips_remaining_pairs :
    (pollEvents failAEnv 2000 0 ["A", "B"] twoPairState).2 = false ∧
    lookupCkpt (pollEvents failAEnv 2000 0 ["A", "B"]
        twoPairState).1.checkpoints "A" = some 100 ∧
    lookupCkpt (pollEvents failAEnv 2000 0 ["A", "B"]
        twoPairState).1.checkpoints "B" = some 100 ∧
    (pollEvents failAEnv 2000 0 ["A", "B"] twoPairState).1.fetched
      = [("A", 101, 105)] ∧
    lookupCkpt (pollEvents failAEnv 2000 0 ["B"]
        twoPairState).1.checkpoints "B" = some 105 := by
  decide

/-- **C8** (amended).  A sub-range fetch failure on a pair aborts the whole
tick from that point on: the failing pair's checkpoint (and everything else
in the datastore) is left unchanged, so the next tick retries the pair from
the same checkpoint, but the pairs after it in registration order are
skipped for the remainder of the tick; pairs processed before the failure
keep their updates. -/
theorem rpc_failure_aborts_tick (env : TickEnv) (batch sb : Nat)
    (st : IndexState) (p : String) (rest : List String) (c : Nat)
    (msg : String) (hb : 1 ≤ batch)
    (hck : lookupCkpt st.checkpoints p = some c)
    (hlt : c < env.head)
    (hfail : env.fetch p (c + 1) (min (c + batch) env.head)
      = .error msg) :
    pollEvents env batch sb (p :: rest) st
      = ({ st with fetched := st.fetched
            ++ [(p, c + 1, min (c + batch) env.head)] }, false) ∧
    lookupCkpt (pollEvents env batch sb (p :: rest) st).1.checkpoints p
      = some c := by
  have e1eq : c + 1 + batch - 1 = c + batch := by omega
  obtain ⟨f, hf⟩ : ∃ f, env.head + 1 - (c + 1) = f + 1 :=
    ⟨env.head - c - 1, by omega⟩
  have hsub : subRanges batch (c + 1) env.head
      = (c + 1, min (c + batch) env.head)
          :: subRangesAux batch env.head f (c + 1 + batch) := by
    rw [subRanges, hf, subRangesAux,
      if_neg (show ¬ env.head < c + 1 by omega), e1eq]
  have hpp : processPair env batch sb st p
      = ({ st with fetched := st.fetched
            ++ [(p, c + 1, min (c + batch) env.head)] }, false) := by
    unfold processPair
    rw [hck]
    simp only
    rw [if_neg (show ¬ env.head < c + 1 by omega), hsub, runRanges, hfail]
  have hpoll : pollEvents env batch sb (p :: rest) st
      = ({ st with fetched := st.fetched
            ++ [(p, c + 1, min (c + batch) env.head)] }, false) := by
    rw [pollEvents, hpp]
  exact ⟨hpoll, by rw [hpoll]; exact hck⟩

/-- **C8, witness** for `rpc_failure_aborts_tick` at the two-pair fixture:
the failing pair "A" is checkpointed at 100, head 105, and the tick aborts
without touching anything but the fetch trace. -/
theorem rpc_failure_aborts_tick_witness :
    1 ≤ 2000 ∧
    lookupCkpt twoPairState.checkpoints "A" = some 100 ∧
    100 < failAEnv.head ∧
    failAEnv.fetch "A" (100 + 1) (min (100 + 2000) failAEnv.head)
      = .error "rate limited" ∧
    (pollEvents failAEnv 2000 0 ["A", "B"] twoPairState)
      = ({ twoPairState with fetched := twoPairState.fetched
            ++ [("A", 100 + 1, min (100 + 2000) failAEnv.head)] }, false) ∧
    lookupCkpt (pollEvents failAEnv 2000 0 ["A", "B"]
        twoPairState).1.checkpoints "A" = some 100 :=
  ⟨by norm_num, by decide, by decide, by rfl,
    (rpc_failure_aborts_tick failAEnv 2000 0 twoPairState "A" ["B"] 100
      "rate limited" (by norm_num) (by decide) (by decide) (by rfl)).1,
    (rpc_failure_aborts_tick failAEnv 2000 0 twoPairState "A" ["B"] 100
      "rate limited" (by norm_num) (by decide) (by decide) (by rfl)).2⟩

end BlocStep
